import Mathlib

/-!
Verification of the claude-admin-bot command executor.

The repository drives one external process per prompt behind a global busy
gate, polls it on a two-phase timeout schedule, kills the process group on
the hard ceiling, and post-processes the captured output.  The same logic
appears in `src/api.py` (`execute_claude_command`, the WebSocket handler)
and `src/bot.py` (`handle_message`, the Telegram handler); the gate,
spawn, poll and kill structure of the two copies is line-for-line
identical, so a single executor model below embeds both.  Text is
modelled as `List Char` (Python `str` operations become the corresponding
list recursions).
-/

set_option maxRecDepth 4000

namespace ClaudeAdminBot

/-- The newline character, the separator of `response.split('\n')`. -/
def nl : Char := '\n'

/-- The backtick character; three in a row form the code-fence marker. -/
def bt : Char := '`'

/-- The fence marker `'```'` from `src/api.py` line 180. -/
def fenceL : List Char := [bt, bt, bt]

/-- Boolean prefix test on character lists, embedding Python
`str.startswith`. -/
def startsWithL : List Char → List Char → Bool
  | [], _ => true
  | _ :: _, [] => false
  | p :: ps, c :: cs => p == c && startsWithL ps cs

/-- Prepend a character to the first piece of a split result (the
left-to-right accumulation step of Python `str.split`). -/
def consHead (c : Char) : List (List Char) → List (List Char)
  | [] => [[c]]
  | r :: rs => (c :: r) :: rs

/-- `response.split('\n')` from `src/api.py` line 171 / `src/bot.py`
line 192: split on every newline, keeping empty pieces. -/
def splitNl : List Char → List (List Char)
  | [] => [[]]
  | c :: cs => if c = nl then [] :: splitNl cs else consHead c (splitNl cs)

/-- `response.split('```')` from `src/api.py` line 182: split on each
non-overlapping occurrence of the three-backtick marker, left to right,
keeping empty pieces. -/
def splitFence : List Char → List (List Char)
  | [] => [[]]
  | [c] => [[c]]
  | [c, d] => [[c, d]]
  | c :: d :: e :: rest =>
    if c = bt ∧ d = bt ∧ e = bt then [] :: splitFence rest
    else consHead c (splitFence (d :: e :: rest))

/-- Python `str.strip()`: drop whitespace from both ends. -/
def trimL (s : List Char) : List Char :=
  ((s.dropWhile Char.isWhitespace).reverse.dropWhile Char.isWhitespace).reverse

/-- `'\n'.join(...)` from `src/api.py` line 173. -/
def joinNl : List (List Char) → List Char
  | [] => []
  | [l] => l
  | l :: l2 :: ls => l ++ nl :: joinNl (l2 :: ls)

/-- The literal `'['`. -/
def lbracketL : List Char := ['[']

/-- The literal `'Using model'`. -/
def usingModelL : List Char := "Using model".toList

/-- The noise predicate of `src/api.py` line 172 / `src/bot.py` line 193:
`l.startswith('[') or l.startswith('Using model')`. -/
def noiseLine (l : List Char) : Bool :=
  startsWithL lbracketL l || startsWithL usingModelL l

/-- `clean_lines` from `src/api.py` line 172: the lines that survive the
noise filter. -/
def cleanLines (response : List Char) : List (List Char) :=
  (splitNl response).filter (fun l => !(noiseLine l))

/-- `src/api.py` lines 170-173 / `src/bot.py` lines 191-194: filter noise
lines, rejoin, strip; if the result is empty (Python falsy), fall back to
the unfiltered response. -/
def cleanResponse (response : List Char) : List Char :=
  let joined := trimL (joinNl (cleanLines response))
  if joined = [] then response else joined

/-- The recognized language tags of `src/api.py` line 188. -/
def langTags : List (List Char) :=
  ["bash".toList, "sh".toList, "python".toList, "js".toList, "json".toList]

/-- The structured output of the postprocessor: the cleaned text, the
`has_code` flag, and the optional extracted `code_snippet`. -/
structure PostResult where
  cleanText : List Char
  hasCode : Bool
  codeSnippet : Option (List Char)
deriving DecidableEq

/-- `src/api.py` lines 175-194: split on the fence marker; with at least
three pieces (two or more markers), `parts[1]` is the snippet — minus its
first line when that line strips to a recognized language tag — and the
text is rebuilt as `(parts[0] + parts[2]).strip()`; otherwise nothing
changes. -/
def extractBlock (response : List Char) : PostResult :=
  let parts := splitFence response
  if 3 ≤ parts.length then
    let c0 := (parts.get? 1).getD []
    let snippet0 :=
      if c0.contains nl then
        let ls := splitNl c0
        if langTags.contains (trimL ((ls.head?).getD [])) then joinNl ls.tail
        else c0
      else c0
    ⟨trimL ((parts.head?).getD [] ++ (parts.get? 2).getD []), true,
      some (trimL snippet0)⟩
  else ⟨response, false, none⟩

/-- The full output postprocessor of `src/api.py` lines 170-202: noise
filtering, then code-block extraction. -/
def postprocess (raw : List Char) : PostResult :=
  extractBlock (cleanResponse raw)

/-- Whether the fence marker occurs anywhere in `s` (the predicate behind
Python `'```' in response`). -/
def containsFence : List Char → Bool
  | [] => false
  | c :: cs => startsWithL fenceL (c :: cs) || containsFence cs

/-- The sentinel `"Нет ответа"` substituted when both streams strip to
empty (`src/api.py` line 136). -/
def noAnswerL : List Char := "Нет ответа".toList

/-- The behaviour of one request's environment: whether `Popen` raises,
when (if ever) the external process exits on its own, what it writes to
the two streams, whether it dies within the 5-second grace wait after
SIGTERM, and whether an unexpected exception is raised during the wait or
while delivering the final reply.  `waitExc` models any exception other
than `TimeoutExpired` raised inside the try block during the wait/status
phase; `reportFails` models the final send raising (possible in the
Telegram handler; in the WebSocket handler `send_message` catches its own
errors, making that flag vacuous there). -/
structure ProcEnv where
  spawnFails : Bool
  waitExc : Bool
  exitTime : Option Nat
  stdoutS : List Char
  stderrS : List Char
  termKills : Bool
  reportFails : Bool

/-- `stdout.strip() or stderr.strip() or "Нет ответа"` from `src/api.py`
line 136 / `src/bot.py` line 164. -/
def rawResponse (env : ProcEnv) : List Char :=
  if trimL env.stdoutS ≠ [] then trimL env.stdoutS
  else if trimL env.stderrS ≠ [] then trimL env.stderrS
  else noAnswerL

/-- Progress events: the initial still-working status sent after the
10-second quiet window, and the per-increment status carrying the tracked
elapsed seconds. -/
inductive Event where
  | statusInitial : Event
  | statusElapsed : Nat → Event
deriving DecidableEq

/-- Terminal outcomes of one execution: busy rejection, completed reply,
the 5-minute-timeout message, or the generic error reply sent by the
`except Exception` handler. -/
inductive Outcome where
  | busy : Outcome
  | completed : PostResult → Outcome
  | timedOut : Outcome
  | execError : Outcome
deriving DecidableEq

/-- What one call of the executor did: the progress events it emitted in
order, its terminal outcome, the busy flag after it returned (the
`finally` block runs on every path), whether a process was spawned, and
whether the process group is still running afterwards. -/
structure ExecResult where
  events : List Event
  outcome : Outcome
  busyAfter : Bool
  spawned : Bool
  procAlive : Bool
deriving DecidableEq

/-- Whether `communicate(timeout=...)` returns rather than raising
`TimeoutExpired`: the process must exit by the wall-clock deadline. -/
def commOk (env : ProcEnv) (deadline : Nat) : Bool :=
  match env.exitTime with
  | some t => decide (t ≤ deadline)
  | none => false

/-- The polling loop of `src/api.py` lines 147-158 / `src/bot.py` lines
171-183: `while elapsed < 300`, wait 30 more seconds; on exit take the
response, on `TimeoutExpired` add 30 to `elapsed` and emit a status event
carrying it.  Returns the emitted events and whether the process exited
(`false` = the `while`'s `else`: the hard ceiling).  The first argument is
recursion fuel only; any fuel above the at most eleven iterations the
guard permits yields the loop's behaviour. -/
def pollLoop (env : ProcEnv) : Nat → Nat → List Event × Bool
  | 0, _ => ([], false)
  | fuel + 1, elapsed =>
    if elapsed < 300 then
      if commOk env (elapsed + 30) then ([], true)
      else
        let r := pollLoop env fuel (elapsed + 30)
        (Event.statusElapsed (elapsed + 30) :: r.1, r.2)
    else ([], false)

/-- The command executor, embedding `execute_claude_command` of
`src/api.py` lines 90-228 and the identically structured Claude branch of
`handle_message` in `src/bot.py` lines 129-238:

* busy gate held → immediate busy reply, nothing else happens;
* otherwise the gate is taken; `Popen` raising lands in the `except`
  handler (error reply, no process); an unexpected wait exception lands
  there too (the handler and the `finally` block kill the live process);
* process exits within the 10-second quiet window → no progress events,
  postprocessed completed reply (or error reply if the send raises);
* otherwise the initial status is sent and the polling loop runs; if the
  process exits in time the completed reply is sent; if the 300-second
  guard fails, SIGTERM is sent to the group and `wait(timeout=5)` is
  called **unguarded**: if the process dies in the grace period the
  timeout reply is sent, and if the wait raises the exception falls into
  the generic handler, producing the error reply;
* the `finally` block runs on every path: the busy flag is cleared and a
  still-live process group is SIGKILLed, so `procAlive` is `false` and
  `busyAfter` is `false` on every non-busy path. -/
def execute (env : ProcEnv) (busy : Bool) : ExecResult :=
  if busy then ⟨[], .busy, busy, false, false⟩
  else if env.spawnFails then ⟨[], .execError, false, false, false⟩
  else if env.waitExc then ⟨[], .execError, false, true, false⟩
  else if commOk env 10 then
    if env.reportFails then ⟨[], .execError, false, true, false⟩
    else ⟨[], .completed (postprocess (rawResponse env)), false, true, false⟩
  else
    let r := pollLoop env 300 10
    let evs := Event.statusInitial :: r.1
    if r.2 then
      if env.reportFails then ⟨evs, .execError, false, true, false⟩
      else ⟨evs, .completed (postprocess (rawResponse env)), false, true, false⟩
    else if env.termKills then ⟨evs, .timedOut, false, true, false⟩
    else ⟨evs, .execError, false, true, false⟩

/-- `is_admin` from `src/bot.py` line 44, with the environment-configured
`ADMIN_ID` passed explicitly. -/
def is_admin (adminId userId : Nat) : Bool := userId == adminId

/-- The Telegram handler's environment: the configured admin id, the
sender's id, the filesystem predicates consulted by the file-download
branch (`os.path.exists`, `os.path.isdir`, `os.path.getsize`), and the
behaviour of the external process. -/
structure BotEnv where
  adminId : Nat
  userId : Nat
  fsExists : List Char → Bool
  fsIsDir : List Char → Bool
  fsSize : List Char → Nat
  proc : ProcEnv

/-- Which branch of `handle_message` ran. -/
inductive BotAction where
  | ignoredNonAdmin : BotAction
  | fileIsDir : BotAction
  | fileTooBig : BotAction
  | fileSent : BotAction
  | claudeRun : ExecResult → BotAction

/-- The outcome of one `handle_message` call: the branch taken, the busy
flag afterwards, whether the busy gate was read or written at all, and
whether a process was spawned. -/
structure BotResult where
  action : BotAction
  busyAfter : Bool
  gateTouched : Bool
  spawned : Bool

/-- The literal `'/'`. -/
def slashL : List Char := ['/']

/-- `handle_message` from `src/bot.py` lines 95-238: reject non-admin
senders; if the stripped text starts with `/` and names an existing
path, run the file-download branch and return (every sub-path returns
before the busy gate is read); otherwise run the Claude executor. -/
def handle_message (env : BotEnv) (text : List Char) (busy : Bool) :
    BotResult :=
  if !(is_admin env.adminId env.userId) then ⟨.ignoredNonAdmin, busy, false, false⟩
  else
    let userText := trimL text
    if startsWithL slashL userText && env.fsExists userText then
      if env.fsIsDir userText then ⟨.fileIsDir, busy, false, false⟩
      else if decide (50 * 1024 * 1024 < env.fsSize userText) then
        ⟨.fileTooBig, busy, false, false⟩
      else ⟨.fileSent, busy, false, false⟩
    else
      let r := execute env.proc busy
      ⟨.claudeRun r, r.busyAfter, true, r.spawned⟩

/-- The `"text"` branch of `websocket_endpoint`, `src/api.py` lines
243-249: if the stripped content is nonempty, `execute_claude_command` is
started.  The source performs no authorization check here: the
`authorized` parameter records the caller's authorization status and is
deliberately unused, mirroring its absence from the handler. -/
def websocket_on_text (authorized : Bool) (content : List Char)
    (env : ProcEnv) (busy : Bool) : Option ExecResult :=
  if trimL content ≠ [] then some (execute env busy) else none

/-- The single-quote character. -/
def squote : Char := '\''

/-- The backslash character. -/
def bslash : Char := '\\'

/-- The per-character action of `text.replace("'", "'\\''")` from
`src/api.py` line 109 / `src/bot.py` line 142: each single quote becomes
the four characters quote, backslash, quote, quote; every other character
is kept (a single-character Python `str.replace` is exactly this
character-wise substitution). -/
def escChar (c : Char) : List Char :=
  if c = squote then [squote, bslash, squote, squote] else [c]

/-- `escaped_text`, applied over the whole prompt. -/
def escList : List Char → List Char
  | [] => []
  | c :: cs => escChar c ++ escList cs

/-- String wrapper for `escList`. -/
def shEscape (s : String) : String := ⟨escList s.data⟩

/-- The fixed tail of the command line after the quoted prompt. -/
def cmdSuffix : String :=
  " | claude -p --continue --model haiku --input-format text"

/-- `claude_command` from `src/api.py` line 112 / `src/bot.py` line 148:
`f"echo '{escaped_text}' | claude -p --continue --model haiku
--input-format text"`. -/
def claude_command (text : String) : String :=
  "echo '" ++ shEscape text ++ "'" ++ cmdSuffix

/-- A POSIX-shell word reader, the semantics against which the escaping
is judged: in unquoted state a space or `|` ends the word, a single quote
enters quoted state, a backslash makes the next character literal; in
single-quoted state every character except the closing quote is literal.
Returns the word's value and the unconsumed remainder. -/
def parseArg : Bool → List Char → Option (List Char × List Char)
  | true, [] => none
  | false, [] => some ([], [])
  | true, c :: cs =>
    if c = squote then parseArg false cs
    else Option.map (fun p => (c :: p.1, p.2)) (parseArg true cs)
  | false, c :: cs =>
    if c = ' ' ∨ c = '|' then some ([], c :: cs)
    else if c = squote then parseArg true cs
    else if c = bslash then
      match cs with
      | [] => none
      | d :: ds => Option.map (fun p => (d :: p.1, p.2)) (parseArg false ds)
    else Option.map (fun p => (c :: p.1, p.2)) (parseArg false cs)

/-- An environment whose process never exits and survives SIGTERM past
the 5-second grace wait. -/
def neverExitEnv : ProcEnv :=
  ⟨false, false, none, [], [], false, false⟩

/-- Scenario B's environment: the process exits at 45 seconds with stdout
`"done"`. -/
def scenBEnv : ProcEnv :=
  ⟨false, false, some 45, "done".toList, [], true, false⟩

/-- A benign fast environment: the process exits at 2 seconds with stdout
`"Hi there"`. -/
def benignEnv : ProcEnv :=
  ⟨false, false, some 2, "Hi there".toList, [], true, false⟩

/-- The events the executor emits when the process never exits: the
initial status, then one status after each 30-second increment; the
bookkeeping `elapsed` is checked against 300 only at the loop head, so
the final event reports 310 seconds. -/
def ceilingEvents : List Event :=
  [.statusInitial, .statusElapsed 40, .statusElapsed 70, .statusElapsed 100,
   .statusElapsed 130, .statusElapsed 160, .statusElapsed 190,
   .statusElapsed 220, .statusElapsed 250, .statusElapsed 280,
   .statusElapsed 310]

/-- Scenario D's raw output. -/
def scenDRaw : List Char :=
  "Explanation text\n```python\nprint(1)\n```\nmore text".toList

/-- A raw output with two fenced blocks and trailing text. -/
def multiBlockRaw : List Char := "a\n```x```b```y```c".toList
/-! ## Supporting lemmas -/

/-- On every non-busy entry the executor's `finally` semantics clears the
gate: whatever the environment does, `busyAfter` is `false`. -/
lemma execute_gate_free (env : ProcEnv) : (execute env false).busyAfter = false := by
  unfold execute
  dsimp only
  repeat' split <;> try rfl

/-- The Telegram handler never returns with the gate held when it was free
on entry. -/
lemma handle_gate_free (benv : BotEnv) (text : List Char) :
    (handle_message benv text false).busyAfter = false := by
  unfold handle_message
  dsimp only
  repeat' split <;> try rfl
  exact execute_gate_free benv.proc

lemma parseArg_true_squote (cs : List Char) :
    parseArg true (squote :: cs) = parseArg false cs := by
  conv_lhs => rw [parseArg.eq_def]
  simp

lemma parseArg_true_other (c : Char) (cs : List Char) (h : ¬c = squote) :
    parseArg true (c :: cs) = Option.map (fun p => (c :: p.1, p.2)) (parseArg true cs) := by
  conv_lhs => rw [parseArg.eq_def]
  simp [h]

lemma parseArg_false_squote (cs : List Char) :
    parseArg false (squote :: cs) = parseArg true cs := by
  conv_lhs => rw [parseArg.eq_def]
  simp [squote]

lemma parseArg_false_bslash (d : Char) (ds : List Char) :
    parseArg false (bslash :: d :: ds) =
      Option.map (fun p => (d :: p.1, p.2)) (parseArg false ds) := by
  conv_lhs => rw [parseArg.eq_def]
  simp [squote, bslash]

lemma parseArg_false_space (cs : List Char) :
    parseArg false (' ' :: cs) = some ([], ' ' :: cs) := by
  conv_lhs => rw [parseArg.eq_def]
  simp

/-- Inside the single-quoted region the escaped prompt parses back to the
prompt itself: the closing quote consumed is the one the command builder
wrote, never one from the prompt. -/
lemma parseArg_escape (t : List Char) (rest : List Char) :
    parseArg true (escList t ++ squote :: rest) =
      Option.map (fun p => (t ++ p.1, p.2)) (parseArg false rest) := by
  induction t with
  | nil =>
    rw [show escList [] ++ squote :: rest = squote :: rest from rfl, parseArg_true_squote]
    cases parseArg false rest with
    | none => rfl
    | some p => rfl
  | cons c t ih =>
    by_cases hc : c = squote
    · subst hc
      rw [show escList (squote :: t) ++ squote :: rest
            = squote :: bslash :: squote :: squote :: (escList t ++ squote :: rest) from by
          simp [escList, escChar]]
      rw [parseArg_true_squote, parseArg_false_bslash, parseArg_false_squote, ih]
      cases parseArg false rest with
      | none => rfl
      | some p => rfl
    · rw [show escList (c :: t) ++ squote :: rest = c :: (escList t ++ squote :: rest) from by
          simp [escList, escChar, hc]]
      rw [parseArg_true_other c _ hc, ih]
      cases parseArg false rest with
      | none => rfl
      | some p => rfl

lemma startsWithL_fence_shape {z : List Char} (h : startsWithL fenceL z = true) :
    ∃ z', z = bt :: bt :: bt :: z' := by
  match z with
  | [] => simp [startsWithL, fenceL] at h
  | [c] => simp [startsWithL, fenceL] at h
  | [c, d] => simp [startsWithL, fenceL] at h
  | c :: d :: e :: z' =>
    simp only [fenceL, startsWithL, Bool.and_eq_true, beq_iff_eq] at h
    exact ⟨z', by rw [← h.1, ← h.2.1, ← h.2.2.1]⟩

lemma startsWithL_fence_self (y : List Char) :
    startsWithL fenceL (bt :: bt :: bt :: y) = true := by
  simp [startsWithL, fenceL]

/-- The fence marker occurs in `s` exactly when `s` decomposes around it. -/
lemma containsFence_iff (s : List Char) :
    containsFence s = true ↔ ∃ x y, s = x ++ fenceL ++ y := by
  constructor
  · intro h
    induction s with
    | nil => simp [containsFence] at h
    | cons c cs ih =>
      rw [containsFence, Bool.or_eq_true] at h
      rcases h with h | h
      · obtain ⟨z', hz⟩ := startsWithL_fence_shape h
        exact ⟨[], z', by simp [fenceL, hz]⟩
      · obtain ⟨x, y, hxy⟩ := ih h
        exact ⟨c :: x, y, by simp [hxy]⟩
  · rintro ⟨x, y, rfl⟩
    induction x with
    | nil =>
      have he : ([] : List Char) ++ fenceL ++ y = bt :: bt :: bt :: y := rfl
      rw [he, containsFence, startsWithL_fence_self]
      rfl
    | cons c x ih =>
      have he : (c :: x) ++ fenceL ++ y = c :: (x ++ fenceL ++ y) := by simp
      rw [he, containsFence, ih]
      simp

/-- A contiguous part of a fence-free text is fence-free. -/
lemma containsFence_part {s l : List Char} (u v : List Char)
    (hs : s = u ++ l ++ v) (h : containsFence s = false) :
    containsFence l = false := by
  by_contra hne
  rw [Bool.not_eq_false] at hne
  obtain ⟨x, y, hl⟩ := (containsFence_iff l).1 hne
  have : containsFence s = true :=
    (containsFence_iff s).2 ⟨u ++ x, y ++ v, by simp [hs, hl]⟩
  rw [this] at h
  exact Bool.noConfusion h

/-- Joining two fence-free texts with a newline cannot create a fence: no
fence character is a newline, so an occurrence would lie wholly on one
side. -/
lemma containsFence_append_nl (a b : List Char) (ha : containsFence a = false)
    (hb : containsFence b = false) : containsFence (a ++ nl :: b) = false := by
  induction a with
  | nil =>
    rw [List.nil_append, containsFence]
    have h1 : startsWithL fenceL (nl :: b) = false := by
      simp [startsWithL, fenceL, nl, bt]
    rw [h1, hb]
    rfl
  | cons c a' ih =>
    rw [containsFence, Bool.or_eq_false_iff] at ha
    have he : (c :: a') ++ nl :: b = c :: (a' ++ nl :: b) := by simp
    rw [he, containsFence, Bool.or_eq_false_iff]
    refine ⟨?_, ih ha.2⟩
    by_contra hne
    rw [Bool.not_eq_false] at hne
    obtain ⟨z', hz⟩ := startsWithL_fence_shape hne
    match a', ha, hz with
    | [], ha, hz =>
      have : nl = bt := by
        simpa using congrArg (fun l => l.get? 1) hz
      exact absurd this (by decide)
    | [d], ha, hz =>
      have : nl = bt := by
        simpa using congrArg (fun l => l.get? 2) hz
      exact absurd this (by decide)
    | d :: e :: a'', ha, hz =>
      have hc : c = bt := by simpa using congrArg (fun l => l.get? 0) hz
      have hd : d = bt := by simpa using congrArg (fun l => l.get? 1) hz
      have he2 : e = bt := by simpa using congrArg (fun l => l.get? 2) hz
      have : startsWithL fenceL (c :: d :: e :: a'') = true := by
        rw [hc, hd, he2]; exact startsWithL_fence_self _
      rw [this] at ha
      exact Bool.noConfusion ha.1

lemma containsFence_joinNl (ls : List (List Char))
    (h : ∀ l ∈ ls, containsFence l = false) :
    containsFence (joinNl ls) = false := by
  induction ls with
  | nil => rfl
  | cons l ls ih =>
    cases ls with
    | nil => exact h l (by simp)
    | cons l2 ls' =>
      rw [joinNl]
      exact containsFence_append_nl _ _ (h l (by simp))
        (ih (fun x hx => h x (List.mem_cons_of_mem _ hx)))

lemma splitNl_ne_nil (s : List Char) : splitNl s ≠ [] := by
  cases s with
  | nil => simp [splitNl]
  | cons c cs =>
    rw [splitNl]
    split
    · simp
    · cases h : splitNl cs with
      | nil => simp [consHead]
      | cons r rs => simp [consHead]

/-- The first piece of `splitNl` is a prefix of the input, and every piece
is a contiguous part of it. -/
lemma splitNl_decomp (s : List Char) :
    (∃ v, s = (splitNl s).headD [] ++ v) ∧
    (∀ l ∈ splitNl s, ∃ u v, s = u ++ l ++ v) := by
  induction s with
  | nil =>
    refine ⟨⟨[], rfl⟩, ?_⟩
    intro l hl
    simp [splitNl] at hl
    exact ⟨[], [], by simp [hl]⟩
  | cons c cs ih =>
    rw [splitNl]
    split
    · next hc =>
      refine ⟨⟨c :: cs, rfl⟩, ?_⟩
      intro l hl
      rcases List.mem_cons.1 hl with rfl | hl
      · exact ⟨[], c :: cs, rfl⟩
      · obtain ⟨u, v, huv⟩ := ih.2 l hl
        exact ⟨c :: u, v, by simp [huv]⟩
    · next hc =>
      rcases hsp : splitNl cs with _ | ⟨r, rs⟩
      · exact absurd hsp (splitNl_ne_nil cs)
      · rw [consHead]
        constructor
        · obtain ⟨v, hv⟩ := ih.1
          rw [hsp] at hv
          exact ⟨v, by simp [List.headD, hv]⟩
        · intro l hl
          rcases List.mem_cons.1 hl with rfl | hl
          · obtain ⟨v, hv⟩ := ih.1
            rw [hsp] at hv
            exact ⟨[], v, by simp [List.headD] at hv; simp [hv]⟩
          · obtain ⟨u, v, huv⟩ := ih.2 l (by rw [hsp]; exact List.mem_cons_of_mem _ hl)
            exact ⟨c :: u, v, by simp [huv]⟩

/-- Stripping is removal at both ends: the input decomposes around its
stripped form. -/
lemma trimL_decomp (s : List Char) : ∃ u v, s = u ++ trimL s ++ v := by
  refine ⟨s.takeWhile Char.isWhitespace,
    ((s.dropWhile Char.isWhitespace).reverse.takeWhile Char.isWhitespace).reverse, ?_⟩
  rw [trimL, List.append_assoc]
  conv_lhs => rw [← List.takeWhile_append_dropWhile (p := Char.isWhitespace) (l := s)]
  congr 1
  conv_lhs =>
    rw [← List.reverse_reverse (s.dropWhile Char.isWhitespace),
      ← List.takeWhile_append_dropWhile (p := Char.isWhitespace)
        (l := (s.dropWhile Char.isWhitespace).reverse)]
  rw [List.reverse_append]

/-- A fence-free text splits on the fence marker into itself alone. -/
lemma splitFence_eq_single {s : List Char} (h : containsFence s = false) :
    splitFence s = [s] := by
  induction s with
  | nil => rfl
  | cons c cs ih =>
    rw [containsFence, Bool.or_eq_false_iff] at h
    match cs, h, ih with
    | [], h, ih => rfl
    | [d], h, ih => rfl
    | d :: e :: rest, h, ih =>
      rw [splitFence]
      split
      · next hbt =>
        rw [hbt.1, hbt.2.1, hbt.2.2] at h
        rw [startsWithL_fence_self] at h
        exact Bool.noConfusion h.1
      · rw [ih h.2, consHead]

lemma cleanLines_no_fence {raw : List Char} (h : containsFence raw = false) :
    ∀ l ∈ cleanLines raw, containsFence l = false := by
  intro l hl
  have hl' : l ∈ splitNl raw := List.mem_of_mem_filter hl
  obtain ⟨u, v, huv⟩ := (splitNl_decomp raw).2 l hl'
  exact containsFence_part u v huv h

lemma cleanResponse_no_fence {raw : List Char} (h : containsFence raw = false) :
    containsFence (cleanResponse raw) = false := by
  rw [cleanResponse]
  split
  · exact h
  · obtain ⟨u, v, huv⟩ := trimL_decomp (joinNl (cleanLines raw))
    exact containsFence_part u v huv
      (containsFence_joinNl _ (cleanLines_no_fence h))

/-- With no fence marker in the raw output, extraction is the identity:
no code fragment, clean text unchanged from the noise-filtered text. -/
lemma postprocess_no_fence {raw : List Char} (h : containsFence raw = false) :
    postprocess raw = ⟨cleanResponse raw, false, none⟩ := by
  rw [postprocess, extractBlock, splitFence_eq_single (cleanResponse_no_fence h)]
  simp

/-! ## Claim theorems -/

/-- C1: once the gate has been acquired (it was free on entry), the busy
gate is `false` after the executor returns, on every path the environment
can force — normal completion, hard-ceiling timeout, spawn failure, and
any exception raised during the wait or while reporting — both for the
WebSocket executor and for the Telegram handler. -/
theorem gate_released_on_all_paths :
    (∀ env : ProcEnv, (execute env false).busyAfter = false) ∧
    (∀ (benv : BotEnv) (text : List Char),
      (handle_message benv text false).busyAfter = false) :=
  ⟨execute_gate_free, handle_gate_free⟩

/-- C2: a request arriving while the gate is held gets the busy outcome
immediately: no events besides it, no process spawned, the gate left
exactly as it was (still held), and — the model being a pure function of
the environment and the entry gate state — the in-flight first execution
is unaffected. -/
theorem busy_request_rejected (env : ProcEnv) :
    execute env true = ⟨[], .busy, true, false, false⟩ := rfl

/-- C3 counterexample: with a process that never exits and survives the
graceful signal, the terminal outcome is the error outcome, not the
timeout outcome, and a progress event reporting 310 seconds (past the
claimed 300) is emitted. -/
theorem hard_ceiling_counterexample :
    (execute neverExitEnv false).outcome ≠ Outcome.timedOut ∧
    (execute neverExitEnv false).outcome = Outcome.execError ∧
    Event.statusElapsed 310 ∈ (execute neverExitEnv false).events := by decide

/-- C3 as amended: when the process never exits, progress events are
emitted after each 30-second increment while the tracked elapsed time —
checked at the loop head only — is below 300s, so the final event reports
310s; then the group gets SIGTERM and a 5-second grace wait; if the
process dies in the grace period the outcome is the timeout outcome, and
if the grace wait raises, the generic handler reports the error outcome
instead; in either case the final cleanup leaves the process group dead
and the gate free. -/
theorem hard_ceiling_amended (env : ProcEnv) (h1 : env.spawnFails = false)
    (h2 : env.waitExc = false) (h3 : env.exitTime = none) :
    (execute env false).events = ceilingEvents ∧
    (env.termKills = true → (execute env false).outcome = Outcome.timedOut) ∧
    (env.termKills = false → (execute env false).outcome = Outcome.execError) ∧
    (execute env false).procAlive = false ∧
    (execute env false).busyAfter = false := by
  rcases env with ⟨sf, we, et, so, se, tk, rf⟩
  simp only at h1 h2 h3
  subst h1 h2 h3
  cases tk
  · exact ⟨rfl, fun h => Bool.noConfusion h, fun _ => rfl, rfl, rfl⟩
  · exact ⟨rfl, fun _ => rfl, fun h => Bool.noConfusion h, rfl, rfl⟩

/-- C3 witness: the amended theorem applied to the concrete never-exiting,
SIGTERM-surviving environment. -/
theorem hard_ceiling_amended_witness :
    (execute neverExitEnv false).events = ceilingEvents ∧
    (execute neverExitEnv false).outcome = Outcome.execError ∧
    (execute neverExitEnv false).procAlive = false :=
  ⟨(hard_ceiling_amended neverExitEnv rfl rfl rfl).1,
   (hard_ceiling_amended neverExitEnv rfl rfl rfl).2.2.1 rfl,
   (hard_ceiling_amended neverExitEnv rfl rfl rfl).2.2.2.1⟩

/-- C4 counterexample: on the timed-out-killing path, when the graceful
wait raises (process still alive after 5 seconds of SIGTERM), the
reported outcome is the error outcome, not the timeout outcome — the
exception does propagate out of the kill sequence into the generic
handler; the forceful kill still happens in the final cleanup. -/
theorem grace_wait_counterexample :
    (execute neverExitEnv false).outcome ≠ Outcome.timedOut ∧
    (execute neverExitEnv false).outcome = Outcome.execError ∧
    (execute neverExitEnv false).procAlive = false ∧
    (execute neverExitEnv false).busyAfter = false := by decide

/-- C4 as amended: if the graceful wait after SIGTERM raises on the
timed-out path, the exception lands in the executor's generic exception
handler: the terminal outcome is the error outcome (not the timeout
outcome); the handler and the `finally` block still terminate the
process group, and the gate is released. -/
theorem grace_wait_amended (env : ProcEnv) (h1 : env.spawnFails = false)
    (h2 : env.waitExc = false) (h3 : env.exitTime = none)
    (h4 : env.termKills = false) :
    (execute env false).outcome = Outcome.execError ∧
    (execute env false).procAlive = false ∧
    (execute env false).busyAfter = false := by
  rcases env with ⟨sf, we, et, so, se, tk, rf⟩
  simp only at h1 h2 h3 h4
  subst h1 h2 h3 h4
  exact ⟨rfl, rfl, rfl⟩

/-- C4 witness: the amended theorem at the concrete never-exiting,
SIGTERM-surviving environment. -/
theorem grace_wait_amended_witness :
    (execute neverExitEnv false).outcome = Outcome.execError ∧
    (execute neverExitEnv false).procAlive = false ∧
    (execute neverExitEnv false).busyAfter = false :=
  grace_wait_amended neverExitEnv rfl rfl rfl rfl

/-- C5 counterexample: the WebSocket text handler runs the executor — and
the external command is spawned — for a caller whose authorization status
is `false`: no authorization check guards this transport. -/
theorem ws_auth_counterexample :
    websocket_on_text false ("hello".toList) benignEnv false
      = some (execute benignEnv false) ∧
    (execute benignEnv false).spawned = true := by decide

/-- C5 as amended: only the Telegram transport checks authorization
(`is_admin`) before the executor is reachable — an unauthorized message
is dropped with nothing spawned and the gate untouched; the WebSocket
transport performs no authorization check at all: its behaviour is
independent of the caller's authorization status. -/
theorem auth_gate_amended :
    (∀ (benv : BotEnv) (text : List Char) (busy : Bool),
      is_admin benv.adminId benv.userId = false →
        handle_message benv text busy = ⟨.ignoredNonAdmin, busy, false, false⟩) ∧
    (∀ (content : List Char) (env : ProcEnv) (busy : Bool),
      websocket_on_text false content env busy
        = websocket_on_text true content env busy) := by
  constructor
  · intro benv text busy h
    unfold handle_message
    rw [h]
    simp
  · intro content env busy
    rfl

/-- C5 witness: a non-admin sender's message is dropped by the Telegram
handler. -/
theorem auth_gate_amended_witness :
    handle_message ⟨1, 2, fun _ => false, fun _ => false, fun _ => 0, benignEnv⟩
      ("hi".toList) false = ⟨.ignoredNonAdmin, false, false, false⟩ :=
  auth_gate_amended.1 _ _ _ (by decide)

/-- C6 counterexample: on Scenario D's output the clean text is not the
claimed `"Explanation text\nmore text"` (both newlines adjacent to the
removed block survive), and with a second fenced block the later block is
not retained inline — `parts[0] + parts[2]` discards everything past the
third fence piece, leaving only `"a\nb"`. -/
theorem code_extraction_counterexample :
    (postprocess scenDRaw).cleanText ≠ "Explanation text\nmore text".toList ∧
    (postprocess multiBlockRaw).cleanText = "a\nb".toList := by decide

/-- C6 as amended: on Scenario D's output the postprocessor yields clean
text `"Explanation text\n\nmore text"` (with the two newlines that
flanked the fences), code fragment `"print(1)"` with the language-tag
line excluded, and `hasCode = true`; only the first fenced block is
extracted, and the rebuilt text keeps only what precedes the first fence
marker and what lies between the second and third markers — later blocks
and trailing text are discarded rather than retained inline. -/
theorem code_extraction_amended :
    postprocess scenDRaw
      = ⟨"Explanation text\n\nmore text".toList, true, some "print(1)".toList⟩ ∧
    postprocess multiBlockRaw = ⟨"a\nb".toList, true, some "x".toList⟩ := by decide

/-- C7: when the external process exits at 45 seconds with stdout
`"done"` (normal delivery, no injected failures), exactly two progress
events are emitted — the initial still-working status after the 10-second
quiet window and one further status at tracked elapsed 40 seconds — and
the terminal outcome is the completed reply carrying `"done"`. -/
theorem scenarioB_two_progress_events (env : ProcEnv)
    (h1 : env.spawnFails = false) (h2 : env.waitExc = false)
    (h3 : env.exitTime = some 45) (h4 : env.stdoutS = "done".toList)
    (h5 : env.reportFails = false) :
    (execute env false).events = [Event.statusInitial, Event.statusElapsed 40] ∧
    (execute env false).outcome = Outcome.completed ⟨"done".toList, false, none⟩ := by
  rcases env with ⟨sf, we, et, so, se, tk, rf⟩
  simp only at h1 h2 h3 h4 h5
  subst h1 h2 h3 h4 h5
  exact ⟨rfl, rfl⟩

/-- C7 witness: the theorem at the concrete Scenario B environment. -/
theorem scenarioB_two_progress_events_witness :
    (execute scenBEnv false).events = [Event.statusInitial, Event.statusElapsed 40] ∧
    (execute scenBEnv false).outcome = Outcome.completed ⟨"done".toList, false, none⟩ :=
  scenarioB_two_progress_events scenBEnv rfl rfl rfl rfl rfl

/-- C8: the noise filter keeps exactly the whole lines whose prefix is
neither `[` nor `Using model` (a line-by-line filter, so removed lines
never reappear); if every line is noise the unfiltered original is
returned instead of an empty result; and when the raw output contains no
fence marker, the postprocessed result has no code fragment and its clean
text is exactly the noise-filtered text. -/
theorem noise_filter_spec :
    (∀ (raw l : List Char),
      l ∈ cleanLines raw ↔ (l ∈ splitNl raw ∧ noiseLine l = false)) ∧
    (∀ raw : List Char,
      (∀ l ∈ splitNl raw, noiseLine l = true) → cleanResponse raw = raw) ∧
    (∀ raw : List Char, containsFence raw = false →
      postprocess raw = ⟨cleanResponse raw, false, none⟩) := by
  refine ⟨?_, ?_, fun raw h => postprocess_no_fence h⟩
  · intro raw l
    simp [cleanLines, List.mem_filter]
  · intro raw h
    have hf : cleanLines raw = [] := by
      rw [cleanLines, List.filter_eq_nil_iff]
      intro l hl
      simp [h l hl]
    rw [cleanResponse, hf]
    simp [joinNl, trimL]

/-- C8 witness: the three parts at concrete raw outputs — an all-noise
output falls back to itself, a fence-free output keeps its filtered text
with no fragment, and membership in the filtered lines is as
characterized. -/
theorem noise_filter_spec_witness :
    ("abc".toList ∈ cleanLines ("abc".toList) ↔
      ("abc".toList ∈ splitNl ("abc".toList) ∧ noiseLine ("abc".toList) = false)) ∧
    cleanResponse ("[log]".toList) = "[log]".toList ∧
    postprocess ("plain text".toList)
      = ⟨cleanResponse ("plain text".toList), false, none⟩ :=
  ⟨noise_filter_spec.1 _ _,
   noise_filter_spec.2.1 _ (by decide),
   noise_filter_spec.2.2 _ (by decide)⟩

/-- C9: for every prompt — single quotes included — the built command
line keeps the entire prompt inside the quoted `echo` argument: reading
the command after `echo ` with POSIX word semantics recovers exactly the
prompt text as the argument's value, and the unconsumed remainder is
exactly the fixed pipeline suffix, so the prompt can neither terminate
the quoted region early nor inject shell syntax. -/
theorem prompt_quoting_roundtrip (text : String) :
    parseArg false ((claude_command text).data.drop 5) =
      some (text.data, cmdSuffix.data) := by
  have hdata : (claude_command text).data.drop 5
      = squote :: (escList text.data ++ squote :: cmdSuffix.data) := by
    show (("echo '" ++ shEscape text ++ "'" ++ cmdSuffix).data).drop 5
        = squote :: (escList text.data ++ squote :: cmdSuffix.data)
    simp [String.data, shEscape, String.append_assoc]
    rfl
  rw [hdata, parseArg_false_squote, parseArg_escape]
  rw [show cmdSuffix.data
        = ' ' :: "| claude -p --continue --model haiku --input-format text".data from rfl,
    parseArg_false_space]
  simp

/-- C10: an authorized Telegram message whose stripped text starts with
`/` and names an existing path takes the file-download branch: the busy
gate is neither read nor written, no process is spawned, and the gate
state is unchanged — even when the gate is free. -/
theorem file_path_branch_skips_gate (benv : BotEnv) (text : List Char) (busy : Bool)
    (hadm : is_admin benv.adminId benv.userId = true)
    (hslash : startsWithL slashL (trimL text) = true)
    (hex : benv.fsExists (trimL text) = true) :
    (handle_message benv text busy).gateTouched = false ∧
    (handle_message benv text busy).spawned = false ∧
    (handle_message benv text busy).busyAfter = busy := by
  unfold handle_message
  rw [hadm]
  dsimp only
  rw [hslash, hex]
  simp only [Bool.not_true, Bool.false_eq_true, if_false, Bool.and_self, if_true]
  split
  · exact ⟨rfl, rfl, rfl⟩
  · split
    · exact ⟨rfl, rfl, rfl⟩
    · exact ⟨rfl, rfl, rfl⟩

/-- C10 witness: the theorem at a concrete admin message naming an
existing file. -/
theorem file_path_branch_skips_gate_witness :
    (handle_message ⟨5, 5, fun _ => true, fun _ => false, fun _ => 0, benignEnv⟩
      ("/etc/hosts".toList) false).gateTouched = false ∧
    (handle_message ⟨5, 5, fun _ => true, fun _ => false, fun _ => 0, benignEnv⟩
      ("/etc/hosts".toList) false).spawned = false ∧
    (handle_message ⟨5, 5, fun _ => true, fun _ => false, fun _ => 0, benignEnv⟩
      ("/etc/hosts".toList) false).busyAfter = false :=
  file_path_branch_skips_gate _ _ _ (by decide) (by decide) rfl

end ClaudeAdminBot
